import Mathlib

/-!
# Flight price prediction service — verification of the specification

Shallow embedding of `Backend/main.py` of the `flight_price_prediction`
repository: the feature-engineering transform functions (`is_north`,
`part_of_day`, `duration_category`, `is_over`, `is_direct`, `have_info`),
the artifact-loading logic (`load_models`, `startup_event`) and the HTTP
endpoint handlers (`predict_flight_price`, `get_dropdown_options`,
`health_check`), together with theorems settling the specification's
claims about them.

A pandas single-row DataFrame is embedded as an association list of
column name / cell value pairs (`Frame`); a cell value is a string or an
integer (`Val`).  Code that can raise is embedded in `Option` / `Except`;
the opaque external artifacts (fitted preprocessor, pickled model) are
type parameters.
-/

/-- A cell value of the single-row table: the request fields are strings
and integers. -/
inductive Val where
  | str : String → Val
  | int : Int → Val
deriving DecidableEq, Repr

/-- A single-row pandas DataFrame: an ordered list of named cells. -/
abbrev Frame : Type := List (String × Val)

/-- The column labels of a frame, in order (`X.columns.to_list()`). -/
def colNames (X : Frame) : List String := X.map Prod.fst

/-- `X.loc[:, c]` on a single row: the first cell under label `c`;
`none` when the column is absent (pandas raises). -/
def getCol : Frame → String → Option Val
  | [], _ => none
  | p :: ps, c => if p.1 = c then some p.2 else getCol ps c

/-- `X.assign(name=v)`: overwrite the column in place when the label
exists, otherwise append it at the end (pandas `assign` semantics). -/
def assignCol (X : Frame) (name : String) (v : Val) : Frame :=
  if name ∈ colNames X then
    X.map (fun p => if p.1 = name then (name, v) else p)
  else X ++ [(name, v)]

/-- `X.assign(**kwargs)`: assign the new columns left to right. -/
def assignCols (X : Frame) (new : List (String × Val)) : Frame :=
  new.foldl (fun acc p => assignCol acc p.1 p.2) X

/-- `X.drop(columns=cs)`: remove every column whose label is in `cs`. -/
def dropCols (X : Frame) (cs : List String) : Frame :=
  X.filter (fun p => decide (p.1 ∉ cs))

/-- The fixed set of north cities of `is_north`. -/
def north_cities : List String := ["Delhi", "Kolkata", "Mumbai", "New Delhi"]

/-- The per-cell flag of `is_north`: `X.loc[:, col].isin(north_cities).astype(int)`
on a city string. -/
def is_north_flag (city : String) : Int :=
  if city ∈ north_cities then 1 else 0

/-- `isin(north_cities)` on a raw cell: an integer cell is never equal to a
string of the list, so it flags `0`. -/
def isNorthVal : Val → Int
  | .str s => is_north_flag s
  | .int _ => 0

/-- `is_north(X)`: assign `f"{col}_is_north"` for every column of `X`, then
drop all original columns. -/
def is_north (X : Frame) : Frame :=
  dropCols
    (assignCols X (X.map (fun p => (p.1 ++ "_is_north", Val.int (isNorthVal p.2)))))
    (colNames X)

/-- The hour bucketing of `part_of_day`: `np.select` over
`between(morning, noon, "left")`, `between(noon, eve, "left")`,
`between(eve, night, "left")` with default `"night"`. -/
def part_of_day_select (h : Nat) (morning : Nat := 4) (noon : Nat := 12)
    (eve : Nat := 16) (night : Nat := 20) : String :=
  if morning ≤ h ∧ h < noon then "morning"
  else if noon ≤ h ∧ h < eve then "afternoon"
  else if eve ≤ h ∧ h < night then "evening"
  else "night"

/-- Split a character list at each colon (the separator of `"HH:MM"`). -/
def splitOnColon : List Char → List Char → List (List Char)
  | [], acc => [acc.reverse]
  | c :: rest, acc =>
    if c = ':' then acc.reverse :: splitOnColon rest []
    else splitOnColon rest (c :: acc)

/-- Read a non-empty run of decimal digits as a number. -/
def digitsToNatAux : List Char → Nat → Option Nat
  | [], acc => some acc
  | c :: rest, acc =>
    if c.isDigit then digitsToNatAux rest (acc * 10 + (c.toNat - 48))
    else none

/-- `none` on the empty list or on any non-digit character. -/
def digitsToNat? : List Char → Option Nat
  | [] => none
  | cs => digitsToNatAux cs 0

/-- `pd.to_datetime(...).dt.hour` on a cell holding an `"HH:MM"` time string;
`none` when the cell does not parse (pandas raises). -/
def extractHour : Val → Option Nat
  | .str s =>
    match splitOnColon s.data [] with
    | [hs, ms] =>
      match digitsToNat? hs, digitsToNat? ms with
      | some hh, some mm => if hh < 24 ∧ mm < 60 then some hh else none
      | _, _ => none
    | _ => none
  | .int _ => none

/-- The extracted hour of every column of the frame, in order; `none` as
soon as one cell fails to parse. -/
def hourCols : Frame → Option (List (String × Nat))
  | [] => some []
  | p :: ps =>
    match extractHour p.2, hourCols ps with
    | some h, some rest => some ((p.1, h) :: rest)
    | _, _ => none

/-- `part_of_day(X)`: replace every column by its extracted hour
(`X_temp`), assign `f"{col}_part_of_day"` from the hour buckets, then drop
the original columns. -/
def part_of_day (X : Frame) : Option Frame :=
  match hourCols X with
  | none => none
  | some hrs =>
    let xtemp := assignCols X (hrs.map (fun p => (p.1, Val.int (Int.ofNat p.2))))
    some (dropCols
      (assignCols xtemp
        (hrs.map (fun p => (p.1 ++ "_part_of_day", Val.str (part_of_day_select p.2)))))
      (colNames X))

/-- The minute bucketing of `duration_category`: `np.select` over
`lt(short)` and `between(short, med, "left")` with default `"long"`. -/
def duration_cat_select (d : Int) (short : Int := 180) (med : Int := 400) : String :=
  if d < short then "short"
  else if short ≤ d ∧ d < med then "medium"
  else "long"

/-- `duration_category(X)`: assign `duration_cat` from the bucket of the
`duration` column, then drop `duration`; pandas raises when the column is
absent or not numeric. -/
def duration_category (X : Frame) (short : Int := 180) (med : Int := 400) :
    Option Frame :=
  match getCol X "duration" with
  | some (.int d) =>
    some (dropCols
      (assignCol X "duration_cat" (Val.str (duration_cat_select d short med)))
      ["duration"])
  | _ => none

/-- `is_over(X, value)`: assign `f"duration_over_{value}"` as the
`duration.ge(value)` flag, then drop `duration`. -/
def is_over (X : Frame) (value : Int := 1000) : Option Frame :=
  match getCol X "duration" with
  | some (.int d) =>
    some (dropCols
      (assignCol X ("duration_over_" ++ toString value)
        (Val.int (if value ≤ d then 1 else 0)))
      ["duration"])
  | _ => none

/-- The per-cell flag of `is_direct`: `X.total_stops.eq(0).astype(int)`. -/
def is_direct_flag (total_stops : Int) : Int :=
  if total_stops = 0 then 1 else 0

/-- `eq(0)` on a raw cell: a string cell never equals the integer `0`. -/
def isDirectVal : Val → Int
  | .int m => is_direct_flag m
  | .str _ => 0

/-- `is_direct(X)`: assign `is_direct_flight` from the `total_stops`
column; the original columns are NOT dropped. -/
def is_direct (X : Frame) : Option Frame :=
  match getCol X "total_stops" with
  | some v => some (assignCol X "is_direct_flight" (Val.int (isDirectVal v)))
  | none => none

/-- `ne("No Info")` on a raw cell: an integer cell is always different
from the string sentinel. -/
def hasInfoVal : Val → Int
  | .str s => if s ≠ "No Info" then 1 else 0
  | .int _ => 1

/-- `have_info(X)`: overwrite `additional_info` in place with the
`ne("No Info")` flag; no column is dropped. -/
def have_info (X : Frame) : Option Frame :=
  match getCol X "additional_info" with
  | some v => some (assignCol X "additional_info" (Val.int (hasInfoVal v)))
  | none => none

/-- The `FlightPredictionRequest` pydantic model: the nine itinerary
fields of a prediction request. -/
structure FlightPredictionRequest where
  airline : String
  date_of_journey : String
  source : String
  destination : String
  dep_time : String
  arrival_time : String
  duration : Int
  total_stops : Int
  additional_info : String
deriving DecidableEq, Repr

/-- The outcome of an endpoint call: a normal response, or an
`HTTPException` with a status code and detail string. -/
inductive HttpResult (α : Type) where
  | httpError (statusCode : Nat) (detail : String)
  | ok (value : α)
deriving DecidableEq, Repr

/-- The single-row DataFrame `x_new` assembled from the request inside
`predict_flight_price`. -/
def requestFrame (r : FlightPredictionRequest) : Frame :=
  [("airline", .str r.airline),
   ("date_of_journey", .str r.date_of_journey),
   ("source", .str r.source),
   ("destination", .str r.destination),
   ("dep_time", .str r.dep_time),
   ("arrival_time", .str r.arrival_time),
   ("duration", .int r.duration),
   ("total_stops", .int r.total_stops),
   ("additional_info", .str r.additional_info)]

/-- `predict_flight_price`: a 500 error when the preprocessor or the model
reference is unset, otherwise run the (opaque) preprocess-and-predict
pipeline on the assembled row, turning any raised exception into a 400
error.  `Pre` and `Mdl` are the opaque loaded artifacts and `runPredict`
abstracts `preprocessor.transform` / `xgb.DMatrix` / `model.predict`. -/
def predict_flight_price {Pre Mdl R : Type}
    (preprocessor : Option Pre) (model : Option Mdl)
    (runPredict : Pre → Mdl → Frame → Except String R)
    (request : FlightPredictionRequest) : HttpResult R :=
  match preprocessor, model with
  | some p, some m =>
    match runPredict p m (requestFrame request) with
    | .ok r => .ok r
    | .error e => .httpError 400 ("Prediction error: " ++ e)
  | _, _ => .httpError 500 "Models not loaded"

/-- Modelled from the spec: FastAPI validates the JSON body against the
request schema before the handler runs, so a malformed or ill-typed body
is rejected with a client error (422 Unprocessable Entity) and the
handler body is the code of `predict_flight_price`.  A parsed body is
`some request`, a malformed one is `none`. -/
def predict_endpoint {Pre Mdl R : Type}
    (body : Option FlightPredictionRequest)
    (preprocessor : Option Pre) (model : Option Mdl)
    (runPredict : Pre → Mdl → Frame → Except String R) : HttpResult R :=
  match body with
  | none => .httpError 422 "Unprocessable Entity"
  | some request => predict_flight_price preprocessor model runPredict request

/-- The process-wide artifact references `training_data`, `preprocessor`,
`model`; `none` is the Python `None` each starts as. -/
structure AppState (T P M : Type) where
  training_data : Option T
  preprocessor : Option P
  model : Option M

/-- `load_models`: inside one `try`, read the training CSV, then the
joblib preprocessor, then the pickled model, in that order; the first
raised exception aborts the block (leaving that artifact and all later
ones unset) and yields `False`, otherwise all three are set and it yields
`True`.  Each loader is abstracted as an `Except` of the artifact. -/
def load_models {T P M : Type}
    (loadTrainingData : Except String T)
    (loadPreprocessor : Except String P)
    (loadModel : Except String M) : AppState T P M × Bool :=
  match loadTrainingData with
  | .error _ => (⟨none, none, none⟩, false)
  | .ok t =>
    match loadPreprocessor with
    | .error _ => (⟨some t, none, none⟩, false)
    | .ok p =>
      match loadModel with
      | .error _ => (⟨some t, some p, none⟩, false)
      | .ok m => (⟨some t, some p, some m⟩, true)

/-- `startup_event`: run `load_models` once at startup; a failure is only
logged, so the resulting state is the state `load_models` left behind. -/
def startup_event {T P M : Type}
    (loadTrainingData : Except String T)
    (loadPreprocessor : Except String P)
    (loadModel : Except String M) : AppState T P M :=
  (load_models loadTrainingData loadPreprocessor loadModel).1

/-- The JSON body returned by the /health endpoint. -/
structure HealthResponse where
  status : String
  preprocessor_loaded : Bool
  model_loaded : Bool
  training_data_loaded : Bool
deriving DecidableEq, Repr

/-- `health_check`: report `x is not None` for each artifact reference;
it is a total function, so the endpoint never fails. -/
def health_check {T P M : Type} (s : AppState T P M) : HealthResponse :=
  ⟨"healthy", s.preprocessor.isSome, s.model.isSome, s.training_data.isSome⟩

/-- Whether an abstracted artifact load raised (`True` on `error`). -/
def loadFailed {α : Type} (r : Except String α) : Bool :=
  match r with
  | .error _ => true
  | .ok _ => false

/-- The columns of the training CSV snapshot that the dropdown endpoint
reads. -/
structure TrainingData where
  airline : List String
  source : List String
  destination : List String
  additional_info : List String
deriving DecidableEq, Repr

/-- The `DropdownOptions` response model: four lists of category
values. -/
structure DropdownOptions where
  airlines : List String
  sources : List String
  destinations : List String
  additional_info : List String
deriving DecidableEq, Repr

/-- `pandas.Series.unique` keeps the first occurrence of each value, in
order of appearance; `seen` accumulates the values already emitted. -/
def dedupFirstAux (seen : List String) : List String → List String
  | [] => []
  | x :: xs =>
    if x ∈ seen then dedupFirstAux seen xs
    else x :: dedupFirstAux (x :: seen) xs

/-- `.unique().tolist()` of a column. -/
def dedupFirst (l : List String) : List String := dedupFirstAux [] l

/-- Lexicographic comparison of character lists, the order by which
Python's `sorted` compares strings (code point by code point). -/
def charListLe : List Char → List Char → Bool
  | [], _ => true
  | _ :: _, [] => false
  | a :: as, b :: bs =>
    if a < b then true
    else if b < a then false
    else charListLe as bs

/-- `a <= b` on strings as Python compares them: lexicographically by
code point. -/
def strLeB (a b : String) : Bool := charListLe a.data b.data

instance : DecidableRel (fun a b : String => strLeB a b = true) :=
  fun a b => inferInstanceAs (Decidable (strLeB a b = true))

/-- `sorted(...)` of a list of strings, ascending in the lexicographic
string order. -/
def sortedStrings (l : List String) : List String :=
  List.insertionSort (fun a b : String => strLeB a b = true) l

/-- `get_dropdown_options`: a 500 error when the training snapshot is
unset, otherwise the four columns deduplicated and sorted. -/
def get_dropdown_options (training_data : Option TrainingData) :
    HttpResult DropdownOptions :=
  match training_data with
  | none => .httpError 500 "Training data not loaded"
  | some t =>
    .ok ⟨sortedStrings (dedupFirst t.airline),
         sortedStrings (dedupFirst t.source),
         sortedStrings (dedupFirst t.destination),
         sortedStrings (dedupFirst t.additional_info)⟩

/-- A concrete training snapshot for exercising the dropdown endpoint. -/
def sampleTrainingData : TrainingData :=
  ⟨["IndiGo", "Air India", "IndiGo"],
   ["Delhi", "Chennai"],
   ["Cochin", "Cochin"],
   ["No Info"]⟩

/-- The dropdown response computed from `sampleTrainingData`. -/
def sampleDropdownOptions : DropdownOptions :=
  ⟨["Air India", "IndiGo"], ["Chennai", "Delhi"], ["Cochin"], ["No Info"]⟩

/-- C5: the duration-category transform maps every duration strictly below
180 minutes to "short", every duration in [180, 400) to "medium", and
every duration of 400 minutes or more to "long"; in particular duration
100 yields "short", 250 yields "medium", and 500 yields "long". -/
theorem duration_category_buckets (d : Int) :
    (duration_cat_select d = "short" ↔ d < 180)
    ∧ (duration_cat_select d = "medium" ↔ 180 ≤ d ∧ d < 400)
    ∧ (duration_cat_select d = "long" ↔ 400 ≤ d)
    ∧ duration_cat_select 100 = "short"
    ∧ duration_cat_select 250 = "medium"
    ∧ duration_cat_select 500 = "long" := by
  refine ⟨?_, ?_, ?_, by decide, by decide, by decide⟩ <;>
    · unfold duration_cat_select
      split_ifs with h1 h2 <;> simp_all <;> omega

/-- C6: for every extracted hour value, the part-of-day transform assigns
"morning" for hours in [4, 12), "afternoon" for hours in [12, 16),
"evening" for hours in [16, 20), and "night" for every other hour
(20 through 23 and 0 through 3). -/
theorem part_of_day_buckets (h : Nat) :
    (part_of_day_select h = "morning" ↔ 4 ≤ h ∧ h < 12)
    ∧ (part_of_day_select h = "afternoon" ↔ 12 ≤ h ∧ h < 16)
    ∧ (part_of_day_select h = "evening" ↔ 16 ≤ h ∧ h < 20)
    ∧ (part_of_day_select h = "night" ↔ h < 4 ∨ 20 ≤ h) := by
  refine ⟨?_, ?_, ?_, ?_⟩ <;>
    · unfold part_of_day_select
      split_ifs with h1 h2 h3 <;> simp_all <;> omega

/-- C7: the north-flag transform outputs flag 1 exactly when the city is a
member of the fixed set {"Delhi", "Kolkata", "Mumbai", "New Delhi"}, and 0
otherwise; in particular "Delhi" yields 1 and "Bangalore" yields 0. -/
theorem is_north_flag_membership (city : String) :
    (is_north_flag city = 1 ↔ city ∈ north_cities)
    ∧ (is_north_flag city = 0 ↔ city ∉ north_cities)
    ∧ is_north_flag "Delhi" = 1
    ∧ is_north_flag "Bangalore" = 0 := by
  refine ⟨?_, ?_, by decide, by decide⟩ <;>
    · unfold is_north_flag
      split_ifs with h1 <;> simp_all

/-- C8: the direct-flight flag equals 1 exactly when the stop count equals
0, and 0 for every non-zero stop count; in particular `total_stops = 0`
yields 1 and `total_stops = 2` yields 0. -/
theorem is_direct_flag_spec (total_stops : Int) :
    (is_direct_flag total_stops = 1 ↔ total_stops = 0)
    ∧ (is_direct_flag total_stops = 0 ↔ total_stops ≠ 0)
    ∧ is_direct_flag 0 = 1
    ∧ is_direct_flag 2 = 0 := by
  refine ⟨?_, ?_, by decide, by decide⟩ <;>
    · unfold is_direct_flag
      split_ifs with h1 <;> simp_all

/-- C2: the /predict endpoint fails with a client error exactly when the
request is malformed (422, rejected by validation) or unprocessable by the
loaded pipeline (400), fails with a server error (500) exactly when the
preprocessor or the model artifact is absent (for a well-formed body), and
returns a successful prediction in every remaining case. -/
theorem predict_endpoint_error_classes {Pre Mdl R : Type}
    (preprocessor : Option Pre) (model : Option Mdl)
    (runPredict : Pre → Mdl → Frame → Except String R)
    (body : Option FlightPredictionRequest) :
    ((∃ d, predict_endpoint body preprocessor model runPredict
        = .httpError 422 d) ↔ body = none)
    ∧ ((∃ d, predict_endpoint body preprocessor model runPredict
        = .httpError 400 d) ↔
        ∃ request p m e, body = some request ∧ preprocessor = some p
          ∧ model = some m ∧ runPredict p m (requestFrame request) = .error e)
    ∧ ((∃ d, predict_endpoint body preprocessor model runPredict
        = .httpError 500 d) ↔
        ∃ request, body = some request
          ∧ (preprocessor = none ∨ model = none))
    ∧ ((∃ r, predict_endpoint body preprocessor model runPredict
        = .ok r) ↔
        ∃ request p m r, body = some request ∧ preprocessor = some p
          ∧ model = some m ∧ runPredict p m (requestFrame request) = .ok r) := by
  cases body with
  | none => simp [predict_endpoint]
  | some request =>
    cases preprocessor with
    | none => simp [predict_endpoint, predict_flight_price]
    | some p =>
      cases model with
      | none => simp [predict_endpoint, predict_flight_price]
      | some m =>
        cases hr : runPredict p m (requestFrame request) with
        | ok r => simp [predict_endpoint, predict_flight_price, hr]
        | error e => simp [predict_endpoint, predict_flight_price, hr]

theorem dedupFirstAux_nodup_not_mem (l : List String) :
    ∀ seen, (dedupFirstAux seen l).Nodup
      ∧ ∀ a ∈ dedupFirstAux seen l, a ∉ seen := by
  induction l with
  | nil => intro seen; simp [dedupFirstAux]
  | cons x xs ih =>
    intro seen
    by_cases hx : x ∈ seen
    · simpa [dedupFirstAux, hx] using ih seen
    · simp only [dedupFirstAux, if_neg hx]
      obtain ⟨hnd, hmem⟩ := ih (x :: seen)
      refine ⟨?_, ?_⟩
      · rw [List.nodup_cons]
        exact ⟨fun hmem2 => (hmem x hmem2) (List.mem_cons_self x seen), hnd⟩
      · intro a ha
        rcases List.mem_cons.mp ha with rfl | ha2
        · exact hx
        · exact fun haseen => (hmem a ha2) (List.mem_cons_of_mem _ haseen)

theorem nodup_dedupFirst (l : List String) : (dedupFirst l).Nodup :=
  (dedupFirstAux_nodup_not_mem l []).1

theorem charListLe_iff (as bs : List Char) :
    charListLe as bs = true ↔ ¬ List.Lex (· < ·) bs as := by
  induction as generalizing bs with
  | nil => simp [charListLe, List.Lex.not_nil_right]
  | cons a as2 ih =>
    cases bs with
    | nil =>
      rw [show charListLe (a :: as2) [] = false from rfl]
      simp only [Bool.false_eq_true, false_iff, not_not]
      exact List.Lex.nil
    | cons b bt =>
      by_cases hab : a < b
      · have hL : charListLe (a :: as2) (b :: bt) = true := by
          simp [charListLe, hab]
        rw [hL]
        simp only [true_iff]
        intro hlex
        cases hlex with
        | cons h2 => exact absurd hab (lt_irrefl _)
        | rel h2 => exact absurd h2 (lt_asymm hab)
      · by_cases hba : b < a
        · have hL : charListLe (a :: as2) (b :: bt) = false := by
            simp [charListLe, hab, hba]
          rw [hL]
          simp only [Bool.false_eq_true, false_iff, not_not]
          exact List.Lex.rel hba
        · have heq : a = b := le_antisymm (le_of_not_lt hba) (le_of_not_lt hab)
          subst heq
          have hL : charListLe (a :: as2) (a :: bt) = charListLe as2 bt := by
            simp [charListLe, hab]
          rw [hL, ih bt]
          constructor
          · intro h hlex
            cases hlex with
            | cons h2 => exact h h2
            | rel h2 => exact absurd h2 (lt_irrefl a)
          · intro h hlex
            exact h (List.Lex.cons hlex)

theorem strLe_le_iff (a b : String) : strLeB a b = true ↔ a ≤ b := by
  rw [String.le_iff_toList_le, ← not_lt]
  exact charListLe_iff a.data b.data

theorem sorted_sortedStrings (l : List String) :
    (sortedStrings l).Sorted (· ≤ ·) := by
  letI : IsTotal String (fun a b : String => strLeB a b = true) :=
    ⟨fun a b => by
      rcases le_total a b with h | h
      · exact Or.inl ((strLe_le_iff a b).mpr h)
      · exact Or.inr ((strLe_le_iff b a).mpr h)⟩
  letI : IsTrans String (fun a b : String => strLeB a b = true) :=
    ⟨fun a b c h1 h2 =>
      (strLe_le_iff a c).mpr
        (le_trans ((strLe_le_iff a b).mp h1) ((strLe_le_iff b c).mp h2))⟩
  have h := List.sorted_insertionSort (fun a b : String => strLeB a b = true) l
  exact List.Pairwise.imp (fun hab => (strLe_le_iff _ _).mp hab) h

theorem nodup_sortedStrings_of_nodup (l : List String) (h : l.Nodup) :
    (sortedStrings l).Nodup :=
  (List.perm_insertionSort (fun a b : String => strLeB a b = true) l).nodup_iff.mpr h

/-- C9: whenever the training snapshot is loaded, each of the four lists
returned by /dropdown-options is sorted in ascending order and contains no
duplicate values. -/
theorem dropdown_options_sorted_nodup (t : TrainingData)
    (opts : DropdownOptions)
    (h : get_dropdown_options (some t) = .ok opts) :
    (opts.airlines.Sorted (· ≤ ·) ∧ opts.airlines.Nodup)
    ∧ (opts.sources.Sorted (· ≤ ·) ∧ opts.sources.Nodup)
    ∧ (opts.destinations.Sorted (· ≤ ·) ∧ opts.destinations.Nodup)
    ∧ (opts.additional_info.Sorted (· ≤ ·) ∧ opts.additional_info.Nodup) := by
  simp only [get_dropdown_options, HttpResult.ok.injEq] at h
  subst h
  exact ⟨⟨sorted_sortedStrings _, nodup_sortedStrings_of_nodup _ (nodup_dedupFirst _)⟩,
         ⟨sorted_sortedStrings _, nodup_sortedStrings_of_nodup _ (nodup_dedupFirst _)⟩,
         ⟨sorted_sortedStrings _, nodup_sortedStrings_of_nodup _ (nodup_dedupFirst _)⟩,
         ⟨sorted_sortedStrings _, nodup_sortedStrings_of_nodup _ (nodup_dedupFirst _)⟩⟩

/-- Witness for C9: the endpoint on the concrete snapshot returns the
concrete response, whose four lists are sorted and duplicate-free. -/
theorem dropdown_options_sorted_nodup_witness :
    get_dropdown_options (some sampleTrainingData) = .ok sampleDropdownOptions
    ∧ ((sampleDropdownOptions.airlines.Sorted (· ≤ ·)
        ∧ sampleDropdownOptions.airlines.Nodup)
      ∧ (sampleDropdownOptions.sources.Sorted (· ≤ ·)
        ∧ sampleDropdownOptions.sources.Nodup)
      ∧ (sampleDropdownOptions.destinations.Sorted (· ≤ ·)
        ∧ sampleDropdownOptions.destinations.Nodup)
      ∧ (sampleDropdownOptions.additional_info.Sorted (· ≤ ·)
        ∧ sampleDropdownOptions.additional_info.Nodup)) := by
  have h : get_dropdown_options (some sampleTrainingData)
      = .ok sampleDropdownOptions := by decide
  exact ⟨h, dropdown_options_sorted_nodup sampleTrainingData sampleDropdownOptions h⟩

/-- Counterexample for C3: artifact load failures are not independent.
When reading the training CSV raises but the preprocessor loader itself
succeeds, the single shared `try` block aborts before the preprocessor
assignment, and /health reports `preprocessor_loaded = false` even though
loading the preprocessor did not fail. -/
theorem health_check_not_per_artifact :
    loadFailed (Except.ok () : Except String Unit) = false
    ∧ (health_check (load_models
        (Except.error "No such file: Data/train.csv" : Except String Unit)
        (Except.ok () : Except String Unit)
        (Except.ok () : Except String Unit)).1).preprocessor_loaded = false :=
  ⟨rfl, rfl⟩

/-- C3 as amended: /health never fails and always reports status
"healthy"; it reports `false` for an artifact exactly when that artifact
was left unset, i.e. exactly when that artifact's own load or the load of
any earlier artifact in the fixed order (training data, preprocessor,
model) raised. -/
theorem health_check_reports_unset_artifacts {T P M : Type}
    (lt : Except String T) (lp : Except String P) (lm : Except String M) :
    (health_check (load_models lt lp lm).1).status = "healthy"
    ∧ ((health_check (load_models lt lp lm).1).training_data_loaded = false
        ↔ loadFailed lt = true)
    ∧ ((health_check (load_models lt lp lm).1).preprocessor_loaded = false
        ↔ (loadFailed lt = true ∨ loadFailed lp = true))
    ∧ ((health_check (load_models lt lp lm).1).model_loaded = false
        ↔ (loadFailed lt = true ∨ loadFailed lp = true ∨ loadFailed lm = true)) := by
  cases lt <;> cases lp <;> cases lm <;>
    simp [load_models, health_check, loadFailed]

/-- C10: after startup the artifact references satisfy the monotone load
invariant: a loaded model implies a loaded preprocessor, and a loaded
preprocessor implies loaded training data, because the three loads run in
a fixed order inside a single exception scope. -/
theorem startup_monotone_loads {T P M : Type}
    (lt : Except String T) (lp : Except String P) (lm : Except String M) :
    ((startup_event lt lp lm).model.isSome = true →
      (startup_event lt lp lm).preprocessor.isSome = true)
    ∧ ((startup_event lt lp lm).preprocessor.isSome = true →
      (startup_event lt lp lm).training_data.isSome = true) := by
  cases lt <;> cases lp <;> cases lm <;>
    simp [startup_event, load_models]

/-- Witness for C10 at a concrete startup where all three loads
succeed. -/
theorem startup_monotone_loads_witness :
    (startup_event (Except.ok () : Except String Unit)
      (Except.ok () : Except String Unit)
      (Except.ok () : Except String Unit)).preprocessor.isSome = true
    ∧ (startup_event (Except.ok () : Except String Unit)
      (Except.ok () : Except String Unit)
      (Except.ok () : Except String Unit)).training_data.isSome = true :=
  ⟨(startup_monotone_loads _ _ _).1 rfl, (startup_monotone_loads _ _ _).2 rfl⟩

theorem colNames_map_overwrite (f : String × Val → String × Val)
    (hf : ∀ p, (f p).1 = p.1) (X : Frame) : colNames (X.map f) = colNames X := by
  induction X with
  | nil => rfl
  | cons p ps ih => simp only [colNames, List.map_cons] at ih ⊢; rw [hf p]; rw [ih]

theorem colNames_assignCol_of_mem {X : Frame} {n : String} (v : Val)
    (h : n ∈ colNames X) : colNames (assignCol X n v) = colNames X := by
  rw [assignCol, if_pos h]
  apply colNames_map_overwrite
  intro p
  by_cases hp : p.1 = n <;> simp [hp]

theorem assignCol_of_not_mem {X : Frame} {n : String} (v : Val)
    (h : n ∉ colNames X) : assignCol X n v = X ++ [(n, v)] := by
  rw [assignCol, if_neg h]

theorem mem_colNames_assignCol {X : Frame} {c : String} (n : String) (v : Val)
    (h : c ∈ colNames X) : c ∈ colNames (assignCol X n v) := by
  by_cases hn : n ∈ colNames X
  · rw [colNames_assignCol_of_mem v hn]; exact h
  · rw [assignCol_of_not_mem v hn]
    simp only [colNames, List.map_append, List.mem_append]
    exact Or.inl h

theorem mem_colNames_assignCol_self (X : Frame) (n : String) (v : Val) :
    n ∈ colNames (assignCol X n v) := by
  by_cases hn : n ∈ colNames X
  · rw [colNames_assignCol_of_mem v hn]; exact hn
  · rw [assignCol_of_not_mem v hn]
    simp [colNames]

theorem getCol_mem_colNames : ∀ {X : Frame} {c : String} {v : Val},
    getCol X c = some v → c ∈ colNames X := by
  intro X
  induction X with
  | nil => intro c v h; simp [getCol] at h
  | cons p ps ih =>
    intro c v h
    simp only [getCol] at h
    by_cases hc : p.1 = c
    · simp only [colNames, List.map_cons, List.mem_cons]
      exact Or.inl hc.symm
    · rw [if_neg hc] at h
      simp only [colNames, List.map_cons, List.mem_cons]
      exact Or.inr (ih h)

theorem assignCols_fresh : ∀ (new : List (String × Val)) (X : Frame),
    (∀ p ∈ new, p.1 ∉ colNames X) → (new.map Prod.fst).Nodup →
    assignCols X new = X ++ new := by
  intro new
  induction new with
  | nil => intro X _ _; simp [assignCols]
  | cons q qs ih =>
    intro X hfresh hnd
    show assignCols (assignCol X q.1 q.2) qs = X ++ q :: qs
    rw [assignCol_of_not_mem q.2 (hfresh q (List.mem_cons_self q qs))]
    have hnd2 : (q.1 :: qs.map Prod.fst).Nodup := by simpa using hnd
    have hq : q.1 ∉ qs.map Prod.fst := (List.nodup_cons.mp hnd2).1
    have hfresh2 : ∀ p ∈ qs, p.1 ∉ colNames (X ++ [(q.1, q.2)]) := by
      intro p hp
      simp only [colNames, List.map_append, List.mem_append, List.map_cons,
        List.map_nil, List.mem_singleton, not_or]
      refine ⟨fun hmem => hfresh p (List.mem_cons_of_mem _ hp) hmem, ?_⟩
      intro heq
      exact hq (heq ▸ List.mem_map_of_mem Prod.fst hp)
    rw [ih (X ++ [(q.1, q.2)]) hfresh2 (List.nodup_cons.mp hnd2).2]
    simp

theorem assignCols_overwrite : ∀ (new : List (String × Val)) (X : Frame),
    (∀ p ∈ new, p.1 ∈ colNames X) → colNames (assignCols X new) = colNames X := by
  intro new
  induction new with
  | nil => intro X _; rfl
  | cons q qs ih =>
    intro X hmem
    show colNames (assignCols (assignCol X q.1 q.2) qs) = colNames X
    have hq := hmem q (List.mem_cons_self q qs)
    have hcols := colNames_assignCol_of_mem q.2 hq
    rw [ih (assignCol X q.1 q.2)
      (fun p hp => by rw [hcols]; exact hmem p (List.mem_cons_of_mem _ hp)), hcols]

theorem dropCols_all : ∀ (X : Frame) {cs : List String},
    (∀ p ∈ X, p.1 ∈ cs) → dropCols X cs = [] := by
  intro X
  induction X with
  | nil => intro cs _; rfl
  | cons p ps ih =>
    intro cs h
    have h1 : p.1 ∈ cs := h p (List.mem_cons_self p ps)
    have h2 := ih (fun q hq => h q (List.mem_cons_of_mem _ hq))
    unfold dropCols at h2 ⊢
    rw [List.filter_cons, if_neg (by simp [h1]), h2]

theorem dropCols_keep : ∀ (X : Frame) {cs : List String},
    (∀ p ∈ X, p.1 ∉ cs) → dropCols X cs = X := by
  intro X
  induction X with
  | nil => intro cs _; rfl
  | cons p ps ih =>
    intro cs h
    have h1 : p.1 ∉ cs := h p (List.mem_cons_self p ps)
    have h2 := ih (fun q hq => h q (List.mem_cons_of_mem _ hq))
    unfold dropCols at h2 ⊢
    rw [List.filter_cons, if_pos (by simp [h1]), h2]

theorem dropCols_append (X Y : Frame) (cs : List String) :
    dropCols (X ++ Y) cs = dropCols X cs ++ dropCols Y cs := by
  simp [dropCols, List.filter_append]

theorem not_mem_colNames_dropCols {cs : List String} {c : String} (h : c ∈ cs) :
    ∀ X : Frame, c ∉ colNames (dropCols X cs) := by
  intro X
  induction X with
  | nil => simp [dropCols, colNames]
  | cons p ps ih =>
    unfold dropCols at ih ⊢
    rw [List.filter_cons]
    by_cases hp : p.1 ∈ cs
    · rw [if_neg (by simp [hp])]
      exact ih
    · rw [if_pos (by simp [hp])]
      simp only [colNames, List.map_cons, List.mem_cons, not_or]
      exact ⟨fun heq => hp (heq ▸ h), by simpa [colNames] using ih⟩

theorem hourCols_names : ∀ (X : Frame) (hrs : List (String × Nat)),
    hourCols X = some hrs → hrs.map Prod.fst = colNames X := by
  intro X
  induction X with
  | nil =>
    intro hrs h
    simp only [hourCols, Option.some.injEq] at h
    subst h; rfl
  | cons p ps ih =>
    intro hrs h
    simp only [hourCols] at h
    cases he : extractHour p.2 with
    | none => rw [he] at h; simp at h
    | some hh =>
      cases hl : hourCols ps with
      | none => rw [he, hl] at h; simp at h
      | some rest =>
        rw [he, hl] at h
        simp only [Option.some.injEq] at h
        subst h
        simp only [List.map_cons]
        rw [ih rest hl]
        rfl

theorem string_append_left_injective (s : String) :
    Function.Injective (fun a : String => a ++ s) := by
  intro a b h
  apply String.ext
  have h2 := congrArg String.data h
  rw [String.data_append, String.data_append] at h2
  exact List.append_cancel_right h2

/-- Counterexample for C4: `is_direct` does not drop its input column.
On the one-column table holding `total_stops = 0`, the result table still
contains the input column `total_stops` next to the derived
`is_direct_flight` column. -/
theorem is_direct_keeps_total_stops :
    is_direct [("total_stops", Val.int 0)]
      = some [("total_stops", Val.int 0), ("is_direct_flight", Val.int 1)]
    ∧ "total_stops" ∈ colNames
        [("total_stops", Val.int 0), ("is_direct_flight", Val.int 1)] :=
  ⟨rfl, by decide⟩

theorem part_of_day_eq {X : Frame} {hrs : List (String × Nat)}
    (h : hourCols X = some hrs) :
    part_of_day X = some (dropCols
      (assignCols
        (assignCols X (hrs.map (fun p => (p.1, Val.int (Int.ofNat p.2)))))
        (hrs.map (fun p => (p.1 ++ "_part_of_day", Val.str (part_of_day_select p.2)))))
      (colNames X)) := by
  unfold part_of_day
  rw [h]

/-- C4 as amended: of the feature transforms, `is_north`, `part_of_day`,
`duration_category` and `is_over` return only derived columns, dropping
all of their input columns (provided the derived labels are fresh, as
they are for the itinerary schema); `is_direct`, however, keeps its input
column `total_stops` and merely appends the derived `is_direct_flight`
column, and `have_info` keeps its input column label `additional_info`,
overwriting that column in place. -/
theorem feature_transforms_column_effects (X : Frame)
    (hnodup : (colNames X).Nodup)
    (hfreshN : ∀ c ∈ colNames X, (c ++ "_is_north") ∉ colNames X)
    (hfreshP : ∀ c ∈ colNames X, (c ++ "_part_of_day") ∉ colNames X) :
    colNames (is_north X) = (colNames X).map (fun c => c ++ "_is_north")
    ∧ (∀ Y, part_of_day X = some Y →
        colNames Y = (colNames X).map (fun c => c ++ "_part_of_day"))
    ∧ (∀ Y short med, duration_category X short med = some Y →
        "duration" ∉ colNames Y)
    ∧ (∀ Y v, is_over X v = some Y → "duration" ∉ colNames Y)
    ∧ (∀ Y, is_direct X = some Y →
        "total_stops" ∈ colNames Y ∧ "is_direct_flight" ∈ colNames Y)
    ∧ (∀ Y, have_info X = some Y → "additional_info" ∈ colNames Y) := by
  refine ⟨?_, ?_, ?_, ?_, ?_, ?_⟩
  · unfold is_north
    have hnames : (X.map (fun p => (p.1 ++ "_is_north", Val.int (isNorthVal p.2)))).map
        Prod.fst = (colNames X).map (fun c => c ++ "_is_north") := by
      simp only [colNames, List.map_map]
      rfl
    have hfresh : ∀ p ∈ X.map (fun p => (p.1 ++ "_is_north", Val.int (isNorthVal p.2))),
        p.1 ∉ colNames X := by
      intro p hp
      obtain ⟨q, hq, rfl⟩ := List.mem_map.mp hp
      exact hfreshN q.1 (List.mem_map_of_mem Prod.fst hq)
    have hndD : ((X.map (fun p => (p.1 ++ "_is_north", Val.int (isNorthVal p.2)))).map
        Prod.fst).Nodup := by
      rw [hnames]
      exact hnodup.map (string_append_left_injective "_is_north")
    rw [assignCols_fresh _ X hfresh hndD, dropCols_append,
      dropCols_all X (fun p hp =>
        show p.1 ∈ colNames X from List.mem_map_of_mem Prod.fst hp),
      dropCols_keep _ hfresh]
    simp only [List.nil_append]
    exact hnames
  · intro Y hY
    cases hh : hourCols X with
    | none => rw [part_of_day, hh] at hY; simp at hY
    | some hrs =>
      rw [part_of_day_eq hh] at hY
      simp only [Option.some.injEq] at hY
      subst hY
      have hhn : hrs.map Prod.fst = colNames X := hourCols_names X hrs hh
      have hover : ∀ p ∈ hrs.map (fun p => (p.1, Val.int (Int.ofNat p.2))),
          p.1 ∈ colNames X := by
        intro p hp
        obtain ⟨q, hq, rfl⟩ := List.mem_map.mp hp
        rw [← hhn]
        exact List.mem_map_of_mem Prod.fst hq
      have hxtemp : colNames (assignCols X
          (hrs.map (fun p => (p.1, Val.int (Int.ofNat p.2))))) = colNames X :=
        assignCols_overwrite _ X hover
      have hnames : (hrs.map (fun p =>
          (p.1 ++ "_part_of_day", Val.str (part_of_day_select p.2)))).map Prod.fst
          = (colNames X).map (fun c => c ++ "_part_of_day") := by
        rw [← hhn]
        simp only [List.map_map]
        rfl
      have hfresh : ∀ p ∈ hrs.map (fun p =>
          (p.1 ++ "_part_of_day", Val.str (part_of_day_select p.2))),
          p.1 ∉ colNames (assignCols X (hrs.map (fun p => (p.1, Val.int (Int.ofNat p.2))))) := by
        intro p hp
        obtain ⟨q, hq, rfl⟩ := List.mem_map.mp hp
        rw [hxtemp]
        refine hfreshP q.1 ?_
        rw [← hhn]
        exact List.mem_map_of_mem Prod.fst hq
      have hndD : ((hrs.map (fun p =>
          (p.1 ++ "_part_of_day", Val.str (part_of_day_select p.2)))).map Prod.fst).Nodup := by
        rw [hnames]
        exact hnodup.map (string_append_left_injective "_part_of_day")
      rw [assignCols_fresh _ _ hfresh hndD, dropCols_append,
        dropCols_all _ (fun p hp => by
          have h2 : p.1 ∈ colNames (assignCols X
              (hrs.map (fun p => (p.1, Val.int (Int.ofNat p.2))))) :=
            List.mem_map_of_mem Prod.fst hp
          rwa [hxtemp] at h2),
        dropCols_keep _ (fun p hp => by
          have h2 := hfresh p hp
          rwa [hxtemp] at h2)]
      simpa [colNames] using hnames
  · intro Y short med hY
    unfold duration_category at hY
    cases hg : getCol X "duration" with
    | none => rw [hg] at hY; simp at hY
    | some v =>
      rw [hg] at hY
      cases v with
      | str s => simp at hY
      | int d =>
        simp only [Option.some.injEq] at hY
        subst hY
        exact not_mem_colNames_dropCols (by simp) _
  · intro Y v hY
    unfold is_over at hY
    cases hg : getCol X "duration" with
    | none => rw [hg] at hY; simp at hY
    | some w =>
      rw [hg] at hY
      cases w with
      | str s => simp at hY
      | int d =>
        simp only [Option.some.injEq] at hY
        subst hY
        exact not_mem_colNames_dropCols (by simp) _
  · intro Y hY
    unfold is_direct at hY
    cases hg : getCol X "total_stops" with
    | none => rw [hg] at hY; simp at hY
    | some v =>
      rw [hg] at hY
      simp only [Option.some.injEq] at hY
      subst hY
      exact ⟨mem_colNames_assignCol _ _ (getCol_mem_colNames hg),
             mem_colNames_assignCol_self X _ _⟩
  · intro Y hY
    unfold have_info at hY
    cases hg : getCol X "additional_info" with
    | none => rw [hg] at hY; simp at hY
    | some v =>
      rw [hg] at hY
      simp only [Option.some.injEq] at hY
      subst hY
      exact mem_colNames_assignCol_self X _ _

/-- Witness for C4 as amended, on concrete one- and two-column tables of
the itinerary schema. -/
theorem feature_transforms_column_effects_witness :
    colNames (is_north [("source", Val.str "Delhi"), ("destination", Val.str "Cochin")])
      = (colNames [("source", Val.str "Delhi"),
          ("destination", Val.str "Cochin")]).map (fun c => c ++ "_is_north")
    ∧ part_of_day [("dep_time", Val.str "09:30"), ("arrival_time", Val.str "21:05")]
      = some [("dep_time_part_of_day", Val.str "morning"),
              ("arrival_time_part_of_day", Val.str "night")]
    ∧ colNames [("dep_time_part_of_day", Val.str "morning"),
          ("arrival_time_part_of_day", Val.str "night")]
      = (colNames [("dep_time", Val.str "09:30"),
          ("arrival_time", Val.str "21:05")]).map (fun c => c ++ "_part_of_day")
    ∧ duration_category [("duration", Val.int 100)]
      = some [("duration_cat", Val.str "short")]
    ∧ "duration" ∉ colNames [("duration_cat", Val.str "short")]
    ∧ is_over [("duration", Val.int 100)] 0 = some [("duration_over_0", Val.int 1)]
    ∧ "duration" ∉ colNames [("duration_over_0", Val.int 1)]
    ∧ is_direct [("total_stops", Val.int 2), ("additional_info", Val.str "No Info")]
      = some [("total_stops", Val.int 2), ("additional_info", Val.str "No Info"),
              ("is_direct_flight", Val.int 0)]
    ∧ ("total_stops" ∈ colNames [("total_stops", Val.int 2),
          ("additional_info", Val.str "No Info"), ("is_direct_flight", Val.int 0)]
        ∧ "is_direct_flight" ∈ colNames [("total_stops", Val.int 2),
          ("additional_info", Val.str "No Info"), ("is_direct_flight", Val.int 0)])
    ∧ have_info [("total_stops", Val.int 2), ("additional_info", Val.str "No Info")]
      = some [("total_stops", Val.int 2), ("additional_info", Val.int 0)]
    ∧ "additional_info" ∈ colNames [("total_stops", Val.int 2),
        ("additional_info", Val.int 0)] := by
  have hN := feature_transforms_column_effects
    [("source", Val.str "Delhi"), ("destination", Val.str "Cochin")]
    (by decide) (by decide) (by decide)
  have hP := feature_transforms_column_effects
    [("dep_time", Val.str "09:30"), ("arrival_time", Val.str "21:05")]
    (by decide) (by decide) (by decide)
  have hD := feature_transforms_column_effects
    [("duration", Val.int 100)] (by decide) (by decide) (by decide)
  have hS := feature_transforms_column_effects
    [("total_stops", Val.int 2), ("additional_info", Val.str "No Info")]
    (by decide) (by decide) (by decide)
  exact ⟨hN.1, rfl,
    hP.2.1 [("dep_time_part_of_day", Val.str "morning"),
            ("arrival_time_part_of_day", Val.str "night")] rfl,
    rfl,
    hD.2.2.1 [("duration_cat", Val.str "short")] 180 400 rfl,
    rfl,
    hD.2.2.2.1 [("duration_over_0", Val.int 1)] 0 rfl,
    rfl,
    hS.2.2.2.2.1 [("total_stops", Val.int 2), ("additional_info", Val.str "No Info"),
                  ("is_direct_flight", Val.int 0)] rfl,
    rfl,
    hS.2.2.2.2.2 [("total_stops", Val.int 2), ("additional_info", Val.int 0)] rfl⟩
